import Mathlib

/-!
Verification of the `ixfrlog` repository: a shallow embedding in Lean 4 of the
IXFR diff decoder (`src/ixfrlog.py`, function `ixfrlog`), the zone run
controller (`src/ixfrlog.py`, function `main`, per-zone post-processing) and
the watch reconciliation engine (`src/watchlist.py`, function `main`), together
with theorems that settle the specification claims.

Modelling conventions:
* A DNS rrset is modelled by the fields the decoder reads: its owner name as
  the Python `str(name)` result, its rdtype, the SOA serial of its first
  record (`rrset[0].serial`, meaningful only for SOA rrsets), and the results
  of the external dnspython text renderings (`rr.to_text(...)` for each rr and
  `rrset.to_text(...)`), which this core treats as opaque collaborator output.
* Python exceptions become `Except` errors.  Accessing `.serial` on `None`
  (the `first_soa.serial` access when no SOA was seen) is the distinct error
  `DecErr.attributeError`.
* The stream of messages is flattened to the stream of rrsets, since the
  decoder's double loop `for m in messages: for rrset in m.answer:` never
  consults message boundaries.
* Side effects on the log file `fp` are modelled as an event trace carried in
  the decoder state, so that the events written before an exception are
  observable.
-/

namespace Ixfrlog

/-- DNS rdata types, as far as the decoder distinguishes them.  `other` carries
the dnspython mnemonic text (`dns.rdatatype.to_text`) of any type that is not
one of the four structurally significant ones. -/
inductive RdType where
  | soa
  | nsec
  | nsec3
  | rrsig
  | other (text : String)
deriving DecidableEq, Repr

/-- `dns.rdatatype.to_text` restricted to the types the model distinguishes. -/
def RdType.toText : RdType → String
  | .soa => "SOA"
  | .nsec => "NSEC"
  | .nsec3 => "NSEC3"
  | .rrsig => "RRSIG"
  | .other t => t

/-- `IGNORE_RDATATYPES = [SOA, NSEC, NSEC3, RRSIG]` from `src/ixfrlog.py`. -/
def IGNORE_RDATATYPES : List RdType := [.soa, .nsec, .nsec3, .rrsig]

/-- One resource-record-set of the transfer stream, carrying exactly the data
the decoder reads from it. -/
structure RRset where
  /-- `str(rrset.name)` -/
  name : String
  ttl : Nat
  /-- `dns.rdataclass.to_text(rrset.rdclass)` -/
  rdclassText : String
  rdtype : RdType
  /-- `rrset[0].serial`; meaningful only when `rdtype = .soa` -/
  soaSerial : Nat
  /-- `[rr.to_text(origin=origin, relativize=False) for rr in rrset]` -/
  rdataText : List String
  /-- `rrset.to_text(origin=origin, relativize=False)` -/
  text : String
deriving DecidableEq, Repr

/-- A SOA boundary marker rrset carrying serial `s`.  The remaining fields are
never read by the decoder for SOA rrsets (SOA is in `IGNORE_RDATATYPES`). -/
def soaRR (s : Nat) : RRset :=
  { name := "@", ttl := 0, rdclassText := "IN", rdtype := .soa,
    soaSerial := s, rdataText := [], text := "" }

/-- `name2str` from `src/ixfrlog.py` lines 36-40. -/
def name2str (name : String) (origin : String) : String :=
  let n := name
  if n = "@" then origin
  else n ++ "." ++ origin

/-- `IXFRresult` dataclass from `src/ixfrlog.py` lines 43-46. -/
structure IXFRresult where
  changes : Nat := 0
  serial : Option Nat := none
deriving DecidableEq, Repr

/-- One JSON log line written to `fp` (`log_entry` built at
`src/ixfrlog.py` lines 96-107); this is the spec's `ChangeEvent`. -/
structure ChangeEvent where
  serial : Nat
  deleted : Bool
  name : String
  ttl : Nat
  rdclass : String
  rdtype : String
  rdata : List String
  text : String
deriving DecidableEq, Repr

/-- Errors the decoder run can raise: `FailedIXFR(serial)` from
`src/ixfrlog.py` lines 31-33, and the Python `AttributeError` produced by the
`first_soa.serial` access at line 87 when `first_soa` is still `None`. -/
inductive DecErr where
  | failedIXFR (serial : Nat)
  | attributeError
deriving DecidableEq, Repr

/-- The local variables of the `ixfrlog` loop, plus the trace of log entries
written to `fp` so far. -/
structure DecSt where
  ixfr_found : Bool
  first_soa : Option Nat
  second_soa : Option Nat
  serial : Nat
  action_add : Bool
  changes : Nat
  events : List ChangeEvent
deriving DecidableEq, Repr

/-- Initial decoder state before the message loop (`src/ixfrlog.py`
lines 61-64); `action_add` is unassigned in the Python source until the second
SOA, and is never read before then, so its initial value is arbitrary. -/
def initSt (startSerial : Nat) : DecSt :=
  { ixfr_found := false, first_soa := none, second_soa := none,
    serial := startSerial, action_add := false, changes := 0, events := [] }

/-- The log entry built for a non-ignored rrset (`src/ixfrlog.py`
lines 91-107) in a state with serial `serial` and block direction
`action_add`. -/
def mkEvent (origin : String) (serial : Nat) (action_add : Bool)
    (r : RRset) : ChangeEvent :=
  { serial := serial, deleted := !action_add,
    name := name2str r.name origin, ttl := r.ttl,
    rdclass := r.rdclassText, rdtype := r.rdtype.toText,
    rdata := r.rdataText, text := r.text }

/-- The body of the inner loop of `ixfrlog` (`src/ixfrlog.py` lines 66-125)
for one rrset. -/
def procRRset (origin : String) (st : DecSt) (r : RRset) :
    Except DecErr DecSt :=
  let st :=
    if r.rdtype = .soa then
      match st.first_soa with
      | none => { st with first_soa := some r.soaSerial }
      | some _ =>
        let st :=
          match st.second_soa with
          | none => { st with second_soa := some r.soaSerial }
          | some _ => st
        let last_serial := st.serial
        let serial := r.soaSerial
        if serial = last_serial then
          { st with serial := serial, ixfr_found := true, action_add := false }
        else
          { st with serial := serial, ixfr_found := true, action_add := true }
    else st
  if r.rdtype ∈ IGNORE_RDATATYPES then
    .ok st
  else if st.ixfr_found = false then
    match st.first_soa with
    | some s => .error (.failedIXFR s)
    | none => .error .attributeError
  else
    .ok { st with changes := st.changes + 1,
                  events :=
                    st.events ++ [mkEvent origin st.serial st.action_add r] }

/-- The decoder loop over the flattened rrset stream.  On an exception the
state reached so far (including the trace of events already written to `fp`)
is returned alongside the error. -/
def runDec (origin : String) : DecSt → List RRset → DecSt × Option DecErr
  | st, [] => (st, none)
  | st, r :: rs =>
    match procRRset origin st r with
    | .ok st' => runDec origin st' rs
    | .error e => (st, some e)

/-- `ixfrlog` from `src/ixfrlog.py` lines 49-127, as a function of the
flattened rrset stream delivered by the external transfer source.  On success
it returns the emitted events together with
`IXFRresult(serial=serial, changes=changes)`. -/
def ixfrlog (origin : String) (startSerial : Nat) (stream : List RRset) :
    Except DecErr (List ChangeEvent × IXFRresult) :=
  match runDec origin (initSt startSerial) stream with
  | (st, none) => .ok (st.events, { changes := st.changes, serial := some st.serial })
  | (_, some e) => .error e

/-- The events written to the log file by a decoder run, whether or not the
run raised an exception. -/
def emittedEvents (origin : String) (startSerial : Nat)
    (stream : List RRset) : List ChangeEvent :=
  (runDec origin (initSt startSerial) stream).1.events

/-- An rrset whose type is not one of the ignored structural/meta types. -/
def notIgnored (r : RRset) : Bool := decide (r.rdtype ∉ IGNORE_RDATATYPES)

/-- A valid IXFR session stream: an initial SOA marker (the echo of the
server's current serial), then alternating SOA markers and record blocks,
ending with a final SOA marker. -/
def sessionStream (s0 : Nat) (groups : List (Nat × List RRset))
    (sfin : Nat) : List RRset :=
  soaRR s0 :: ((groups.flatMap fun g => soaRR g.1 :: g.2) ++ [soaRR sfin])

/-- Spec-side description of the events a valid session should produce
(spec §4.1/§8): one event per non-ignored rrset, in stream order, carrying the
serial of the marker that precedes its block, with `deleted = true` exactly
when that marker's serial equals the serial tracked at that point. -/
def specEvents (origin : String) : Nat → List (Nat × List RRset) →
    List ChangeEvent
  | _, [] => []
  | tracked, (s, block) :: rest =>
    ((block.filter notIgnored).map fun r =>
      { serial := s, deleted := decide (s = tracked),
        name := name2str r.name origin, ttl := r.ttl,
        rdclass := r.rdclassText, rdtype := r.rdtype.toText,
        rdata := r.rdataText, text := r.text })
      ++ specEvents origin s rest

/-- A concrete A rrset used for witnesses. -/
def aRec : RRset :=
  { name := "www", ttl := 300, rdclassText := "IN", rdtype := .other "A",
    soaSerial := 0, rdataText := ["192.0.2.1"],
    text := "www.example.com. 300 IN A 192.0.2.1" }

/-- A concrete NSEC rrset (an ignored type) used for witnesses. -/
def nsecRec : RRset :=
  { name := "www", ttl := 300, rdclassText := "IN", rdtype := .nsec,
    soaSerial := 0, rdataText := ["zzz.example.com. A RRSIG NSEC"],
    text := "www.example.com. 300 IN NSEC zzz.example.com. A RRSIG NSEC" }

/-- Whether a decoder outcome is the `FailedIXFR` (spec: `NotIncremental`)
failure. -/
def isNotIncrementalFailure {α : Type} : Except DecErr α → Bool
  | .error (.failedIXFR _) => true
  | _ => false

/-- JSON values, as far as the log schema uses them: the image of
`json.dumps`/`json.loads` on a log line. -/
inductive Json where
  | str (s : String)
  | num (n : Int)
  | jbool (b : Bool)
  | arr (elems : List Json)
  | obj (fields : List (String × Json))

/-- Reading a JSON value as a string. -/
def Json.asStr : Json → Option String
  | .str s => some s
  | _ => none

/-- Reading a JSON value as a non-negative integer. -/
def Json.asNat : Json → Option Nat
  | .num n => if n < 0 then none else some n.toNat
  | _ => none

/-- Reading a JSON value as a boolean. -/
def Json.asBool : Json → Option Bool
  | .jbool b => some b
  | _ => none

/-- Reading a JSON value as an array of strings. -/
def Json.asStrList : Json → Option (List String)
  | .arr xs => xs.mapM Json.asStr
  | _ => none

/-- The JSON object written for one `ChangeEvent`: the `log_entry` dict of
`src/ixfrlog.py` lines 96-107, in insertion order. -/
def ChangeEvent.toJson (e : ChangeEvent) : Json :=
  .obj [("serial", .num e.serial), ("deleted", .jbool e.deleted),
        ("name", .str e.name), ("ttl", .num e.ttl),
        ("rdclass", .str e.rdclass), ("rdtype", .str e.rdtype),
        ("rdata", .arr (e.rdata.map .str)), ("text", .str e.text)]

/-- Parsing a log-schema JSON object back into a `ChangeEvent` (spec §6: the
diff log artifact schema, as read back by `json.loads` plus field access). -/
def ChangeEvent.fromJson : Json → Option ChangeEvent
  | .obj fields => do
    let serial ← (← fields.lookup "serial").asNat
    let deleted ← (← fields.lookup "deleted").asBool
    let name ← (← fields.lookup "name").asStr
    let ttl ← (← fields.lookup "ttl").asNat
    let rdclass ← (← fields.lookup "rdclass").asStr
    let rdtype ← (← fields.lookup "rdtype").asStr
    let rdata ← (← fields.lookup "rdata").asStrList
    let text ← (← fields.lookup "text").asStr
    some { serial := serial, deleted := deleted, name := name, ttl := ttl,
           rdclass := rdclass, rdtype := rdtype, rdata := rdata, text := text }
  | _ => none

/-- The event the decoder emits for `aRec` in an addition block at serial 2
with origin `example.com.` (used by witnesses). -/
def ev9 : ChangeEvent :=
  { serial := 2, deleted := false, name := "www.example.com.", ttl := 300,
    rdclass := "IN", rdtype := "A", rdata := ["192.0.2.1"],
    text := "www.example.com. 300 IN A 192.0.2.1" }

end Ixfrlog

namespace Watchlist

open Ixfrlog (ChangeEvent)

/-- The apostrophe character, used by the Python `str()` rendering of a list
of strings. -/
def squote : String := String.singleton (Char.ofNat 39)

/-- The Python `str()` of a list of plain strings (no embedded quotes or
escapes), as interpolated by an f-string. -/
def pyStrListRepr (xs : List String) : String :=
  "[" ++ String.intercalate ", " (xs.map fun x => squote ++ x ++ squote) ++ "]"

/-- `change2rr` from `src/watchlist.py` lines 9-13.  In the log schema
`change["rdata"]` is always a list, so the `isinstance` test reduces to the
length test; a one-element list is unwrapped to its element, any other list is
interpolated via its Python `str()`. -/
def change2rr (change : ChangeEvent) : String :=
  let rdata :=
    if change.rdata.length = 1 then change.rdata.headD ""
    else pyStrListRepr change.rdata
  change.name ++ " " ++ change.rdclass ++ " " ++ change.rdtype ++ " " ++ rdata

/-- The two `defaultdict(set)` accumulators and the `modified_names` set of
`src/watchlist.py` lines 59-61. -/
structure Accum where
  data_del : String → Finset String
  data_add : String → Finset String
  modified_names : Finset String

/-- Empty accumulators (`defaultdict(set)` defaults). -/
def initAccum : Accum :=
  { data_del := fun _ => ∅, data_add := fun _ => ∅, modified_names := ∅ }

/-- The keys of the watch configuration; `name not in watchlist` is a key
membership test on the watchlist dict. -/
def watchKeys (watchlist : List (String × List String)) : List String :=
  watchlist.map Prod.fst

/-- The body of the log-reading loop of `src/watchlist.py` lines 64-79 for one
parsed change. -/
def stepEvent (keys : List String) (acc : Accum) (change : ChangeEvent) :
    Accum :=
  let name := change.name
  if name ∈ keys then
    let acc := { acc with modified_names := insert name acc.modified_names }
    let v := change2rr change
    if change.deleted then
      { acc with
        data_del := fun n =>
          if n = name then insert v (acc.data_del n) else acc.data_del n,
        data_add := fun n =>
          if n = name then (acc.data_add n).erase v else acc.data_add n }
    else
      { acc with
        data_add := fun n =>
          if n = name then insert v (acc.data_add n) else acc.data_add n,
        data_del := fun n =>
          if n = name then (acc.data_del n).erase v else acc.data_del n }
  else acc

/-- The full fold of the ordered event sequence. -/
def reconcile (keys : List String) (events : List ChangeEvent) : Accum :=
  events.foldl (stepEvent keys) initAccum

/-- Appending one domain to one recipient's list in the
`defaultdict(list)` of `src/watchlist.py` lines 54-57, keyed in first-seen
recipient order. -/
def dprAdd (acc : List (String × List String)) (r : String) (d : String) :
    List (String × List String) :=
  if (acc.lookup r).isSome then
    acc.map fun p => if p.1 = r then (p.1, p.2 ++ [d]) else p
  else acc ++ [(r, [d])]

/-- `domains_per_recipient` from `src/watchlist.py` lines 54-57. -/
def domainsPerRecipient (watchlist : List (String × List String)) :
    List (String × List String) :=
  watchlist.foldl (fun acc p => p.2.foldl (fun acc r => dprAdd acc r p.1) acc) []

/-- The report lines printed for one domain (`src/watchlist.py` lines 83-87):
the deleted set sorted, then the added set sorted. -/
def reportForDomain (acc : Accum) (d : String) : List String :=
  ((acc.data_del d).sort (· ≤ ·)).map (fun rr => "  Deleted: " ++ rr) ++
    ((acc.data_add d).sort (· ≤ ·)).map (fun rr => "  Added:   " ++ rr)

/-- The whole report (`src/watchlist.py` lines 81-87). -/
def reportLines (watchlist : List (String × List String))
    (events : List ChangeEvent) : List String :=
  let acc := reconcile (watchKeys watchlist) events
  (domainsPerRecipient watchlist).flatMap fun p =>
    ("Report for " ++ p.1 ++ ":") :: p.2.flatMap (reportForDomain acc)

/-- Disjointness of the per-domain deleted and added sets (spec §3,
`ReportAccumulator` invariant). -/
def DisjointSets (acc : Accum) : Prop :=
  ∀ d v, ¬(v ∈ acc.data_del d ∧ v ∈ acc.data_add d)

/-- The most recent event for domain `d` producing comparison key `k0`. -/
def lastMatch (d k0 : String) (events : List ChangeEvent) :
    Option ChangeEvent :=
  events.reverse.find? fun e => e.name == d && (change2rr e == k0)

/-- A one-domain watch configuration for witnesses. -/
def watch0 : List (String × List String) := [("w.example.com.", ["alice"])]

/-- A deletion event for the watched domain, record value `X`. -/
def delXEvent : ChangeEvent :=
  { serial := 11, deleted := true, name := "w.example.com.", ttl := 60,
    rdclass := "IN", rdtype := "TXT", rdata := ["X"],
    text := "w.example.com. 60 IN TXT X" }

/-- An addition event for the watched domain, record value `Y`. -/
def addYEvent : ChangeEvent :=
  { serial := 12, deleted := false, name := "w.example.com.", ttl := 60,
    rdclass := "IN", rdtype := "TXT", rdata := ["Y"],
    text := "w.example.com. 60 IN TXT Y" }

/-- An event agreeing with `delXEvent` on name, rdclass, rdtype and rdata but
differing in serial, deleted, ttl and text (used by the C8 witness). -/
def delXEventVariant : ChangeEvent :=
  { serial := 99, deleted := false, name := "w.example.com.", ttl := 3600,
    rdclass := "IN", rdtype := "TXT", rdata := ["X"],
    text := "completely different presentation text" }

end Watchlist

namespace Controller

open Ixfrlog (IXFRresult)

/-- One zone's entry in the persisted state dict (spec §6). -/
structure ZoneConfig where
  nameserver : String
  serial : Option Nat := none
  filename : Option String := none
deriving DecidableEq, Repr

/-- The state dict: zone name → config, in insertion order. -/
abbrev StateMap := List (String × ZoneConfig)

/-- Python exceptions the controller model can raise: a `KeyError` from a
dict assignment on a missing key, or an uncaught transport error from the
transfer source. -/
inductive PyErr where
  | keyError
  | transport
deriving DecidableEq, Repr

/-- What happens to the temporary output file at the end of a zone run:
`os.rename` to the final artifact name, or `os.unlink`. -/
inductive FileAction where
  | renameTo (filename : String)
  | unlink
deriving DecidableEq, Repr

/-- `state[k][...] = v`: updates the entry for `k`, or raises `KeyError` when
`k` is not a key of the dict. -/
def dictSet (st : StateMap) (k : String) (f : ZoneConfig → ZoneConfig) :
    Except PyErr StateMap :=
  if (List.lookup k st).isSome then
    .ok (st.map fun p => if p.1 = k then (p.1, f p.2) else p)
  else .error .keyError

/-- Python `zone.rstrip(".")`: remove all trailing dot characters. -/
def rstripDots (s : String) : String :=
  ⟨(s.data.reverse.dropWhile fun c => c = Char.ofNat 46).reverse⟩

/-- Python `f"{x}"` for the `new_serial` variable (an `int` or `None`). -/
def pyStrOptNat : Option Nat → String
  | some n => toString n
  | none => "None"

/-- The observable outcome of one zone's post-run processing: the state dict
after the run, the action taken on the temporary output file, and whether the
run set `exit_status = -1`. -/
structure ZoneOut where
  state : StateMap
  action : Option FileAction
  exitNeg : Bool
deriving DecidableEq, Repr

/-- The per-zone result handling of `main` (`src/ixfrlog.py` lines 192-232):
the `try`/`except FailedIXFR` around the decoder call, the `updated` test, the
serial persistence, and the rename-or-unlink decision on the temporary output
file.  `outcome` is the decoder's result (`.error s` for `FailedIXFR(s)`);
`output_size` is `os.fstat(output_fp.fileno()).st_size`; `haveLog` is whether
`--log` created an output file.  Note that line 226 rebinds `zone` to its
dot-stripped form before the `state[zone]["filename"]` assignment. -/
def processZoneResult (st : StateMap) (zone : String) (last_serial : Nat)
    (outcome : Except Nat IXFRresult) (output_size : Nat) (haveLog : Bool) :
    Except PyErr ZoneOut :=
  let afterTry : Except PyErr (Option Nat × StateMap) :=
    match outcome with
    | .ok res => .ok (res.serial, st)
    | .error excSerial =>
      match dictSet st zone (fun c => { c with serial := some excSerial }) with
      | .ok st2 => .ok (none, st2)
      | .error e => .error e
  match afterTry with
  | .error e => .error e
  | .ok (new_serial, st) =>
    let updated : Bool :=
      match new_serial with
      | none => false
      | some ns => decide (last_serial ≠ ns)
    let afterSerial : Except PyErr StateMap :=
      if updated then dictSet st zone (fun c => { c with serial := new_serial })
      else .ok st
    match afterSerial with
    | .error e => .error e
    | .ok st =>
      if haveLog then
        if updated ∧ 0 < output_size then
          let zoneT := rstripDots zone
          let filename := zoneT ++ "-" ++ pyStrOptNat new_serial ++ ".log"
          match dictSet st zoneT (fun c => { c with filename := some filename }) with
          | .error e => .error e
          | .ok st =>
            .ok { state := st, action := some (.renameTo filename),
                  exitNeg := false }
        else .ok { state := st, action := some .unlink, exitNeg := true }
      else .ok { state := st, action := none, exitNeg := false }

/-- The outcome of the decoder call for one zone, as seen by the controller:
a normal return, a `FailedIXFR` exception, or any other (transport-level)
exception, which `main` does not catch. -/
inductive RunOutcome where
  | success (res : IXFRresult)
  | notIncremental (serial : Nat)
  | transportError
deriving DecidableEq, Repr

/-- One iteration of `main`'s zone loop (`src/ixfrlog.py` lines 182-232):
read `last_serial` from the live state entry, run the decoder, and process the
result.  A transport error propagates uncaught. -/
def zoneStep (runs : String → RunOutcome) (sizes : String → Nat)
    (haveLog : Bool) (st : StateMap) (zone : String) : Except PyErr ZoneOut :=
  match List.lookup zone st with
  | none => .error .keyError
  | some cfg =>
    let last_serial := cfg.serial.getD 0
    match runs zone with
    | .transportError => .error .transport
    | .success res =>
      processZoneResult st zone last_serial (.ok res) (sizes zone) haveLog
    | .notIncremental s =>
      processZoneResult st zone last_serial (.error s) (sizes zone) haveLog

/-- The zone loop of `main`: processes the zones in order, threading the state
dict; an uncaught exception aborts the whole loop.  Returns the final state,
the per-zone file actions, and whether any zone set `exit_status = -1`. -/
def controllerLoop (runs : String → RunOutcome) (sizes : String → Nat)
    (haveLog : Bool) :
    StateMap → List String →
      Except PyErr (StateMap × List (String × Option FileAction) × Bool)
  | st, [] => .ok (st, [], false)
  | st, z :: zs =>
    match zoneStep runs sizes haveLog st z with
    | .error e => .error e
    | .ok out =>
      match controllerLoop runs sizes haveLog out.state zs with
      | .error e => .error e
      | .ok (st2, acts, neg) =>
        .ok (st2, (z, out.action) :: acts, out.exitNeg || neg)

/-- The zones whose run is attempted before an uncaught exception stops the
loop. -/
def processedZones (runs : String → RunOutcome) (sizes : String → Nat)
    (haveLog : Bool) : StateMap → List String → List String
  | _, [] => []
  | st, z :: zs =>
    z ::
      match zoneStep runs sizes haveLog st z with
      | .error _ => []
      | .ok out => processedZones runs sizes haveLog out.state zs

/-- The state-file contents persisted at process end (`src/ixfrlog.py`
lines 237-238), or `none` when an uncaught exception aborts the process
before the write. -/
def controllerMain (runs : String → RunOutcome) (sizes : String → Nat)
    (haveLog : Bool) (st0 : StateMap) : Option StateMap :=
  match controllerLoop runs sizes haveLog st0 (st0.map Prod.fst) with
  | .ok (st, _, _) => some st
  | .error _ => none

/-- A concrete two-zone state dict for witnesses and counterexamples. -/
def cexSt0 : StateMap :=
  [("a.example.com.", { nameserver := "ns1", serial := some 1 }),
   ("b.example.com.", { nameserver := "ns1", serial := some 1 })]

/-- A run oracle where the first zone hits a transport error and the second
would succeed with changes. -/
def cexRuns : String → RunOutcome := fun z =>
  if z = "a.example.com." then .transportError
  else .success { changes := 2, serial := some 5 }

/-- A one-zone state dict whose key has no trailing dot (C5 witness). -/
def c5St : StateMap :=
  [("example.com", { nameserver := "ns1", serial := some 1 })]

/-- A one-zone state dict whose key is dot-terminated (C5 counterexample). -/
def c5StDot : StateMap :=
  [("example.com.", { nameserver := "ns1", serial := some 1 })]

end Controller

namespace Ixfrlog

theorem mkEvent_decide (origin : String) (s tracked : Nat) (r : RRset) :
    mkEvent origin s (decide ¬(s = tracked)) r =
      { serial := s, deleted := decide (s = tracked),
        name := name2str r.name origin, ttl := r.ttl,
        rdclass := r.rdclassText, rdtype := r.rdtype.toText,
        rdata := r.rdataText, text := r.text } := by
  simp [mkEvent]

theorem procRRset_soa (origin : String) (s : Nat) (ifd : Bool) (f : Nat)
    (ss : Option Nat) (ser : Nat) (aa : Bool) (ch : Nat)
    (ev : List ChangeEvent) :
    procRRset origin ⟨ifd, some f, ss, ser, aa, ch, ev⟩ (soaRR s) =
      .ok ⟨true, some f, some (ss.getD s), s, decide ¬(s = ser), ch, ev⟩ := by
  rcases ss with _ | s2 <;> by_cases hs : s = ser <;>
    simp [procRRset, soaRR, IGNORE_RDATATYPES, hs]

theorem runDec_cons_ok (origin : String) (st st' : DecSt) (r : RRset)
    (rs : List RRset) (h : procRRset origin st r = .ok st') :
    runDec origin st (r :: rs) = runDec origin st' rs := by
  simp [runDec, h]

theorem runDec_cons_err (origin : String) (st : DecSt) (r : RRset)
    (rs : List RRset) (e : DecErr) (h : procRRset origin st r = .error e) :
    runDec origin st (r :: rs) = (st, some e) := by
  simp [runDec, h]

theorem map_mkEvent_decide (origin : String) (s tracked : Nat)
    (l : List RRset) :
    l.map (mkEvent origin s (decide ¬(s = tracked))) =
      l.map fun r =>
        ({ serial := s, deleted := decide (s = tracked),
           name := name2str r.name origin, ttl := r.ttl,
           rdclass := r.rdclassText, rdtype := r.rdtype.toText,
           rdata := r.rdataText, text := r.text } : ChangeEvent) :=
  List.map_congr_left fun r _ => mkEvent_decide origin s tracked r

theorem runDec_block (origin : String) (block : List RRset)
    (hb : ∀ r ∈ block, r.rdtype ≠ RdType.soa) (rest : List RRset)
    (f : Nat) (ss : Option Nat) (ser : Nat) (aa : Bool) (ch : Nat)
    (ev : List ChangeEvent) :
    runDec origin ⟨true, some f, ss, ser, aa, ch, ev⟩ (block ++ rest) =
      runDec origin ⟨true, some f, ss, ser, aa,
          ch + (block.filter notIgnored).length,
          ev ++ (block.filter notIgnored).map (mkEvent origin ser aa)⟩
        rest := by
  induction block generalizing ch ev with
  | nil => simp
  | cons r block ih =>
    have hr : r.rdtype ≠ RdType.soa := hb r (by simp)
    have hb' : ∀ x ∈ block, x.rdtype ≠ RdType.soa := fun x hx =>
      hb x (by simp [hx])
    by_cases hig : r.rdtype ∈ IGNORE_RDATATYPES
    · have hproc : procRRset origin ⟨true, some f, ss, ser, aa, ch, ev⟩ r =
          .ok ⟨true, some f, ss, ser, aa, ch, ev⟩ := by
        simp [procRRset, hr, hig]
      have hnot : notIgnored r = false := by simp [notIgnored, hig]
      rw [List.cons_append, runDec_cons_ok origin _ _ r _ hproc,
        ih hb' ch ev]
      simp [List.filter_cons, hnot]
    · have hproc : procRRset origin ⟨true, some f, ss, ser, aa, ch, ev⟩ r =
          .ok ⟨true, some f, ss, ser, aa, ch + 1,
               ev ++ [mkEvent origin ser aa r]⟩ := by
        simp [procRRset, hr, hig]
      have hnot : notIgnored r = true := by simp [notIgnored, hig]
      rw [List.cons_append, runDec_cons_ok origin _ _ r _ hproc,
        ih hb' (ch + 1) (ev ++ [mkEvent origin ser aa r])]
      have hst : (⟨true, some f, ss, ser, aa,
            ch + 1 + (block.filter notIgnored).length,
            ev ++ [mkEvent origin ser aa r] ++
              (block.filter notIgnored).map (mkEvent origin ser aa)⟩ :
              DecSt) =
          ⟨true, some f, ss, ser, aa,
            ch + ((r :: block).filter notIgnored).length,
            ev ++ ((r :: block).filter notIgnored).map
              (mkEvent origin ser aa)⟩ := by
        simp [List.filter_cons, hnot]
        omega
      rw [hst]

theorem runDec_session (origin : String) (sfin : Nat)
    (groups : List (Nat × List RRset))
    (hb : ∀ g ∈ groups, ∀ r ∈ g.2, r.rdtype ≠ RdType.soa) :
    ∀ (ifd : Bool) (f : Nat) (ss : Option Nat) (ser : Nat) (aa : Bool)
      (ch : Nat) (ev : List ChangeEvent),
    ∃ ss2 aa2,
      runDec origin ⟨ifd, some f, ss, ser, aa, ch, ev⟩
          ((groups.flatMap fun g => soaRR g.1 :: g.2) ++ [soaRR sfin]) =
        (⟨true, some f, ss2, sfin, aa2,
          ch + (specEvents origin ser groups).length,
          ev ++ specEvents origin ser groups⟩, none) := by
  induction groups with
  | nil =>
    intro ifd f ss ser aa ch ev
    refine ⟨some (ss.getD sfin), decide ¬(sfin = ser), ?_⟩
    rw [List.flatMap_nil, List.nil_append,
      runDec_cons_ok origin _ _ _ _ (procRRset_soa origin sfin ifd f ss ser aa ch ev)]
    simp [runDec, specEvents]
  | cons g rest ih =>
    intro ifd f ss ser aa ch ev
    obtain ⟨s, block⟩ := g
    have hbg : ∀ r ∈ block, r.rdtype ≠ RdType.soa := fun r hr =>
      hb (s, block) (by simp) r hr
    have hbrest : ∀ g ∈ rest, ∀ r ∈ g.2, r.rdtype ≠ RdType.soa := fun g hg =>
      hb g (List.mem_cons_of_mem _ hg)
    obtain ⟨ss2, aa2, hrest⟩ :=
      ih hbrest true f (some (ss.getD s)) s (decide ¬(s = ser))
        (ch + (block.filter notIgnored).length)
        (ev ++ (block.filter notIgnored).map
          (mkEvent origin s (decide ¬(s = ser))))
    refine ⟨ss2, aa2, ?_⟩
    have hstream :
        ((((s, block) :: rest).flatMap fun g => soaRR g.1 :: g.2) ++
            [soaRR sfin]) =
          soaRR s :: (block ++
            ((rest.flatMap fun g => soaRR g.1 :: g.2) ++ [soaRR sfin])) := by
      rw [List.flatMap_cons]
      simp [List.append_assoc]
    rw [hstream,
      runDec_cons_ok origin _ _ _ _ (procRRset_soa origin s ifd f ss ser aa ch ev),
      runDec_block origin block hbg _ f (some (ss.getD s)) s
        (decide ¬(s = ser)) ch ev, hrest]
    simp only [specEvents, map_mkEvent_decide, List.length_append,
      List.length_map, List.append_assoc, Nat.add_assoc]

/-- C1: for every valid IXFR session stream of alternating SOA markers and
record blocks, starting and ending with SOA markers, `ixfrlog` emits exactly
one `ChangeEvent` per non-ignored rrset, in stream order, with
`deleted = true` exactly for the rrsets of a block whose preceding SOA marker
carried a serial equal to the serial tracked at that point, and returns an
`IXFRresult` whose change count is the number of emitted events and whose
serial is the serial of the last SOA marker processed. -/
theorem c1_decode_valid_session (origin : String)
    (startSerial s0 sfin : Nat) (groups : List (Nat × List RRset))
    (hb : ∀ g ∈ groups, ∀ r ∈ g.2, r.rdtype ≠ RdType.soa) :
    ixfrlog origin startSerial (sessionStream s0 groups sfin) =
      .ok (specEvents origin startSerial groups,
           { changes := (specEvents origin startSerial groups).length,
             serial := some sfin }) := by
  obtain ⟨ss2, aa2, h⟩ :=
    runDec_session origin sfin groups hb false s0 none startSerial false 0 []
  have hfirst :
      procRRset origin ⟨false, none, none, startSerial, false, 0, []⟩
          (soaRR s0) =
        .ok ⟨false, some s0, none, startSerial, false, 0, []⟩ := by
    simp [procRRset, soaRR, IGNORE_RDATATYPES]
  have hrun : runDec origin (initSt startSerial)
      (sessionStream s0 groups sfin) =
      (⟨true, some s0, ss2, sfin, aa2,
        0 + (specEvents origin startSerial groups).length,
        [] ++ specEvents origin startSerial groups⟩, none) := by
    rw [sessionStream, initSt, runDec_cons_ok origin _ _ _ _ hfirst]
    exact h
  rw [ixfrlog, hrun]
  simp

/-- C1 witness: a concrete two-block session (a deletion block at serial 1,
then an addition block advancing to serial 2). -/
theorem c1_decode_valid_session_witness :
    ixfrlog "example.com." 1
        (sessionStream 1 [(1, [aRec]), (2, [aRec])] 2) =
      .ok (specEvents "example.com." 1 [(1, [aRec]), (2, [aRec])],
           { changes :=
               (specEvents "example.com." 1 [(1, [aRec]), (2, [aRec])]).length,
             serial := some 2 }) :=
  c1_decode_valid_session "example.com." 1 1 2 [(1, [aRec]), (2, [aRec])]
    (by decide)

/-- C2 counterexample: a stream in which a non-ignored rrset precedes any SOA
marker at all makes the decoder fail with the Python `AttributeError` from the
`first_soa.serial` access on `None`, not with `FailedIXFR`; the claim's
parenthetical case therefore fails. -/
theorem c2_counterexample :
    ixfrlog "example.com." 0 [aRec] = .error .attributeError ∧
      isNotIncrementalFailure (ixfrlog "example.com." 0 [aRec]) = false :=
  ⟨rfl, rfl⟩

theorem runDec_ignored (origin : String) (l : List RRset)
    (hl : ∀ x ∈ l, x.rdtype ∈ IGNORE_RDATATYPES ∧ x.rdtype ≠ RdType.soa)
    (st : DecSt) (rest : List RRset) :
    runDec origin st (l ++ rest) = runDec origin st rest := by
  induction l with
  | nil => simp
  | cons x l ih =>
    have hx := hl x (by simp)
    have hl' : ∀ y ∈ l, y.rdtype ∈ IGNORE_RDATATYPES ∧ y.rdtype ≠ RdType.soa :=
      fun y hy => hl y (by simp [hy])
    have hproc : procRRset origin st x = .ok st := by
      simp [procRRset, hx.1, hx.2]
    rw [List.cons_append, runDec_cons_ok origin _ _ x _ hproc, ih hl']

/-- C2 (amended): if the first non-ignored rrset of the stream occurs after
the first SOA marker but before any second SOA marker, the decoder fails with
`FailedIXFR` carrying the first SOA marker's serial and has written zero
events to the log; when such an rrset precedes any SOA marker, the decoder
instead crashes with an attribute error (see `c2_counterexample`). -/
theorem c2_amended_not_incremental (origin : String) (startSerial : Nat)
    (a b : List RRset) (s1 r : RRset) (rest : List RRset)
    (hs1 : s1.rdtype = RdType.soa)
    (ha : ∀ x ∈ a, x.rdtype ∈ IGNORE_RDATATYPES ∧ x.rdtype ≠ RdType.soa)
    (hbl : ∀ x ∈ b, x.rdtype ∈ IGNORE_RDATATYPES ∧ x.rdtype ≠ RdType.soa)
    (hr : r.rdtype ∉ IGNORE_RDATATYPES) :
    ixfrlog origin startSerial (a ++ s1 :: (b ++ r :: rest)) =
        .error (.failedIXFR s1.soaSerial) ∧
      emittedEvents origin startSerial (a ++ s1 :: (b ++ r :: rest)) = [] := by
  have hrsoa : r.rdtype ≠ RdType.soa := by
    intro h
    exact hr (by rw [h]; simp [IGNORE_RDATATYPES])
  have hfirst :
      procRRset origin ⟨false, none, none, startSerial, false, 0, []⟩ s1 =
        .ok ⟨false, some s1.soaSerial, none, startSerial, false, 0, []⟩ := by
    simp [procRRset, hs1, IGNORE_RDATATYPES]
  have hfail :
      procRRset origin
          ⟨false, some s1.soaSerial, none, startSerial, false, 0, []⟩ r =
        .error (.failedIXFR s1.soaSerial) := by
    simp [procRRset, hrsoa, hr]
  have hrun : runDec origin (initSt startSerial) (a ++ s1 :: (b ++ r :: rest)) =
      (⟨false, some s1.soaSerial, none, startSerial, false, 0, []⟩,
        some (.failedIXFR s1.soaSerial)) := by
    rw [initSt, runDec_ignored origin a ha _ _,
      runDec_cons_ok origin _ _ s1 _ hfirst,
      runDec_ignored origin b hbl _ _,
      runDec_cons_err origin _ r _ _ hfail]
  constructor
  · rw [ixfrlog, hrun]
  · rw [emittedEvents, hrun]

/-- C2 witness: `[SOA(10), NSEC, A-record]` fails with `FailedIXFR(10)` and
writes no events. -/
theorem c2_amended_not_incremental_witness :
    ixfrlog "example.com." 10 ([] ++ soaRR 10 :: ([nsecRec] ++ aRec :: [])) =
        .error (.failedIXFR (soaRR 10).soaSerial) ∧
      emittedEvents "example.com." 10
          ([] ++ soaRR 10 :: ([nsecRec] ++ aRec :: [])) = [] :=
  c2_amended_not_incremental "example.com." 10 [] [nsecRec] (soaRR 10) aRec []
    (by decide) (by decide) (by decide) (by decide)

theorem mapM_asStr_loop (xs acc : List String) :
    List.mapM.loop Json.asStr (xs.map Json.str) acc =
      some (acc.reverse ++ xs) := by
  induction xs generalizing acc with
  | nil => simp [List.mapM.loop]
  | cons x xs ih => simp [List.mapM.loop, Json.asStr, ih (x :: acc)]

theorem mapM_asStr (xs : List String) :
    (xs.map Json.str).mapM Json.asStr = some xs := by
  simp [List.mapM, mapM_asStr_loop]

theorem fromJson_toJson (e : ChangeEvent) :
    ChangeEvent.fromJson (ChangeEvent.toJson e) = some e := by
  have hserial : ¬((e.serial : Int) < 0) := by omega
  have httl : ¬((e.ttl : Int) < 0) := by omega
  simp [ChangeEvent.toJson, ChangeEvent.fromJson, Json.asNat, Json.asBool,
    Json.asStr, Json.asStrList, hserial, httl, mapM_asStr, mapM_asStr_loop,
    List.lookup]

/-- C9: every `ChangeEvent` emitted by a successful decoder run, serialized as
one JSON object of the log schema, parses back from that object to an event
equal to the original in every field. -/
theorem c9_log_roundtrip (origin : String) (startSerial : Nat)
    (stream : List RRset) (evs : List ChangeEvent) (res : IXFRresult)
    (hrun : ixfrlog origin startSerial stream = .ok (evs, res))
    (e : ChangeEvent) (he : e ∈ evs) :
    ChangeEvent.fromJson (ChangeEvent.toJson e) = some e :=
  fromJson_toJson e

/-- C9 witness: the event emitted for a concrete one-block session
round-trips through the log schema. -/
theorem c9_log_roundtrip_witness :
    ChangeEvent.fromJson (ChangeEvent.toJson ev9) = some ev9 :=
  c9_log_roundtrip "example.com." 1 (sessionStream 1 [(2, [aRec])] 2) [ev9]
    { changes := 1, serial := some 2 } rfl ev9 (by simp)

/-- C10: the owner string of an emitted event is the origin itself when the
rrset's name is the literal `@`, and otherwise the concatenation
`str(name) + "." + str(origin)`; an already fully-qualified name therefore
gets the origin appended a second time. -/
theorem c10_owner_qualification :
    (∀ origin : String, name2str "@" origin = origin) ∧
    (∀ n origin : String, n ≠ "@" → name2str n origin = n ++ "." ++ origin) ∧
    (∀ (origin : String) (serial : Nat) (aa : Bool) (r : RRset),
      (mkEvent origin serial aa r).name = name2str r.name origin) :=
  ⟨fun origin => by simp [name2str],
   fun n origin hn => by simp [name2str, hn],
   fun _ _ _ _ => rfl⟩

/-- C10 witness: a dot-terminated absolute owner name is suffixed with the
origin a second time, producing a doubly-qualified owner string. -/
theorem c10_owner_qualification_witness :
    name2str "www.example.com." "example.com." =
        "www.example.com." ++ "." ++ "example.com." ∧
      name2str "www.example.com." "example.com." =
        "www.example.com..example.com." :=
  ⟨c10_owner_qualification.2.1 "www.example.com." "example.com." (by decide),
   by decide⟩

end Ixfrlog

namespace Watchlist

open Ixfrlog (ChangeEvent)

theorem stepEvent_not_key (k : List String) (acc : Accum) (e : ChangeEvent)
    (d v : String) (h : e.name ≠ d ∨ change2rr e ≠ v) :
    (v ∈ (stepEvent k acc e).data_del d ↔ v ∈ acc.data_del d) ∧
    (v ∈ (stepEvent k acc e).data_add d ↔ v ∈ acc.data_add d) := by
  by_cases hk : e.name ∈ k
  · by_cases hd : d = e.name
    · have hv : v ≠ change2rr e := by
        rcases h with h | h
        · exact absurd hd.symm h
        · exact fun hh => h hh.symm
      by_cases hdel : e.deleted <;>
        simp [stepEvent, hk, hd, hdel, hv, Finset.mem_insert, Finset.mem_erase]
    · by_cases hdel : e.deleted <;> simp [stepEvent, hk, hd, hdel]
  · simp [stepEvent, hk]

theorem stepEvent_match (k : List String) (acc : Accum) (e : ChangeEvent)
    (hk : e.name ∈ k) :
    ((change2rr e ∈ (stepEvent k acc e).data_del e.name) ↔
        e.deleted = true) ∧
    ((change2rr e ∈ (stepEvent k acc e).data_add e.name) ↔
        e.deleted = false) := by
  by_cases hdel : e.deleted <;>
    simp [stepEvent, hk, hdel, Finset.mem_insert, Finset.mem_erase]

theorem reconcile_append (k : List String) (L : List ChangeEvent)
    (e : ChangeEvent) :
    reconcile k (L ++ [e]) = stepEvent k (reconcile k L) e := by
  simp [reconcile, List.foldl_append]

theorem lastMatch_append (d k0 : String) (L : List ChangeEvent)
    (e : ChangeEvent) :
    lastMatch d k0 (L ++ [e]) =
      if (e.name == d && (change2rr e == k0)) = true then some e
      else lastMatch d k0 L := by
  by_cases h : (e.name == d && (change2rr e == k0)) = true <;>
    simp [lastMatch, List.reverse_append, List.find?, h]

theorem reconcile_net (k : List String) (L : List ChangeEvent) (d k0 : String)
    (hd : d ∈ k) :
    (∀ e, lastMatch d k0 L = some e →
      ((k0 ∈ (reconcile k L).data_del d ↔ e.deleted = true) ∧
       (k0 ∈ (reconcile k L).data_add d ↔ e.deleted = false))) ∧
    (lastMatch d k0 L = none →
      k0 ∉ (reconcile k L).data_del d ∧ k0 ∉ (reconcile k L).data_add d) := by
  induction L using List.reverseRecOn with
  | nil =>
    constructor
    · intro e he
      simp [lastMatch] at he
    · intro _
      simp [reconcile, initAccum]
  | append_singleton L e0 ih =>
    by_cases hmatch : (e0.name == d && (change2rr e0 == k0)) = true
    · obtain ⟨hn, hkey⟩ : e0.name = d ∧ change2rr e0 = k0 := by
        simpa [Bool.and_eq_true, beq_iff_eq] using hmatch
      constructor
      · intro e he
        rw [lastMatch_append, if_pos hmatch] at he
        obtain rfl : e0 = e := by simpa using he
        rw [reconcile_append]
        subst hn
        subst hkey
        exact stepEvent_match k (reconcile k L) e0 hd
      · intro he
        rw [lastMatch_append, if_pos hmatch] at he
        exact absurd he (by simp)
    · have hnm : e0.name ≠ d ∨ change2rr e0 ≠ k0 := by
        have h2 : ¬(e0.name = d ∧ change2rr e0 = k0) := by
          simpa [Bool.and_eq_true, beq_iff_eq] using hmatch
        exact not_and_or.mp h2
      have hstep := stepEvent_not_key k (reconcile k L) e0 d k0 hnm
      constructor
      · intro e he
        rw [lastMatch_append, if_neg hmatch] at he
        obtain ⟨h1, h2⟩ := ih.1 e he
        rw [reconcile_append]
        exact ⟨hstep.1.trans h1, hstep.2.trans h2⟩
      · intro he
        rw [lastMatch_append, if_neg hmatch] at he
        obtain ⟨h1, h2⟩ := ih.2 he
        rw [reconcile_append]
        exact ⟨fun hh => h1 (hstep.1.mp hh), fun hh => h2 (hstep.2.mp hh)⟩

/-- C3: after the reconciliation fold over the full ordered event sequence,
for a watched domain and a comparison key: if the last event for that domain
producing that key is a deletion the key is in the deleted set and not the
added set, if it is an addition the key is in the added set and not the
deleted set, and a key produced by no event is in neither. -/
theorem c3_net_diff_law (watchlist : List (String × List String))
    (L : List ChangeEvent) (d k0 : String) (hd : d ∈ watchKeys watchlist) :
    (∀ e, lastMatch d k0 L = some e →
      ((k0 ∈ (reconcile (watchKeys watchlist) L).data_del d ↔
          e.deleted = true) ∧
       (k0 ∈ (reconcile (watchKeys watchlist) L).data_add d ↔
          e.deleted = false))) ∧
    (lastMatch d k0 L = none →
      k0 ∉ (reconcile (watchKeys watchlist) L).data_del d ∧
      k0 ∉ (reconcile (watchKeys watchlist) L).data_add d) :=
  reconcile_net (watchKeys watchlist) L d k0 hd

/-- C3 witness: over `[del X, add Y]` the last event producing key `X` is the
deletion, and `X` ends up in the deleted set only. -/
theorem c3_net_diff_law_witness :
    (change2rr delXEvent ∈
        (reconcile (watchKeys watch0) [delXEvent, addYEvent]).data_del
          "w.example.com." ↔ delXEvent.deleted = true) ∧
    (change2rr delXEvent ∈
        (reconcile (watchKeys watch0) [delXEvent, addYEvent]).data_add
          "w.example.com." ↔ delXEvent.deleted = false) :=
  (c3_net_diff_law watch0 [delXEvent, addYEvent] "w.example.com."
    (change2rr delXEvent) (by decide)).1 delXEvent (by decide)

theorem stepEvent_disjoint (k : List String) (acc : Accum) (e : ChangeEvent)
    (h : DisjointSets acc) : DisjointSets (stepEvent k acc e) := by
  intro d v hv
  by_cases hk : e.name ∈ k
  · by_cases hd : d = e.name
    · by_cases hdel : e.deleted
      · simp [stepEvent, hk, hd, hdel, Finset.mem_insert,
          Finset.mem_erase] at hv
        rcases hv with ⟨h1 | h1, h2, h3⟩
        · exact h2 h1
        · exact h e.name v ⟨h1, h3⟩
      · simp [stepEvent, hk, hd, hdel, Finset.mem_insert,
          Finset.mem_erase] at hv
        rcases hv with ⟨⟨h1, h2⟩, h3 | h3⟩
        · exact h1 h3
        · exact h e.name v ⟨h2, h3⟩
    · by_cases hdel : e.deleted <;>
        · simp [stepEvent, hk, hd, hdel] at hv
          exact h d v hv
  · simp [stepEvent, hk] at hv
    exact h d v hv

theorem foldl_step_disjoint (k : List String) (L : List ChangeEvent) :
    ∀ acc, DisjointSets acc → DisjointSets (L.foldl (stepEvent k) acc) := by
  induction L with
  | nil => exact fun acc h => h
  | cons e L ih =>
    intro acc h
    rw [List.foldl_cons]
    exact ih _ (stepEvent_disjoint k acc e h)

theorem reconcile_disjoint (k : List String) (L : List ChangeEvent) :
    DisjointSets (reconcile k L) := by
  have hinit : DisjointSets initAccum := by
    intro d v hv
    simp [initAccum] at hv
  exact foldl_step_disjoint k L initAccum hinit

/-- C4: at every intermediate state of the reconciliation fold the per-domain
deleted and added sets are disjoint, and each single fold step preserves
disjointness. -/
theorem c4_disjoint_invariant (watchlist : List (String × List String))
    (L : List ChangeEvent) :
    (∀ p, p <+: L →
      DisjointSets (reconcile (watchKeys watchlist) p)) ∧
    (∀ acc e, DisjointSets acc →
      DisjointSets (stepEvent (watchKeys watchlist) acc e)) :=
  ⟨fun p _ => reconcile_disjoint (watchKeys watchlist) p,
   fun acc e h => stepEvent_disjoint (watchKeys watchlist) acc e h⟩

/-- C4 witness: the invariant at the full fold of a concrete event list. -/
theorem c4_disjoint_invariant_witness :
    DisjointSets (reconcile (watchKeys watch0) [delXEvent, addYEvent]) :=
  (c4_disjoint_invariant watch0 [delXEvent, addYEvent]).1
    [delXEvent, addYEvent] (List.prefix_refl _)

/-- C7: for each recipient and each watched domain assigned to it, the report
emits the domain's deleted entries first and then its added entries, each
group sorted lexicographically by the comparison key; in particular, folding
`[del X, add Y]` for a watched domain yields deleted `X` followed by
added `Y`. -/
theorem c7_report_order :
    (∀ (watchlist : List (String × List String)) (L : List ChangeEvent)
        (r : String) (ds : List String),
      (r, ds) ∈ domainsPerRecipient watchlist → ∀ d ∈ ds,
      ∃ dels adds : List String,
        reportForDomain (reconcile (watchKeys watchlist) L) d =
            dels.map (fun s => "  Deleted: " ++ s) ++
              adds.map (fun s => "  Added:   " ++ s) ∧
          dels.Sorted (· ≤ ·) ∧ adds.Sorted (· ≤ ·) ∧
          (∀ v, v ∈ dels ↔
            v ∈ (reconcile (watchKeys watchlist) L).data_del d) ∧
          (∀ v, v ∈ adds ↔
            v ∈ (reconcile (watchKeys watchlist) L).data_add d)) ∧
    reportForDomain (reconcile (watchKeys watch0) [delXEvent, addYEvent])
        "w.example.com." =
      ["  Deleted: w.example.com. IN TXT X",
       "  Added:   w.example.com. IN TXT Y"] := by
  constructor
  · intro wl L r ds hr d hd
    exact ⟨((reconcile (watchKeys wl) L).data_del d).sort (· ≤ ·),
      ((reconcile (watchKeys wl) L).data_add d).sort (· ≤ ·), rfl,
      Finset.sort_sorted _ _, Finset.sort_sorted _ _,
      fun v => Finset.mem_sort _, fun v => Finset.mem_sort _⟩
  · have hdel : (reconcile (watchKeys watch0)
        [delXEvent, addYEvent]).data_del "w.example.com." =
          {change2rr delXEvent} := by decide
    have hadd : (reconcile (watchKeys watch0)
        [delXEvent, addYEvent]).data_add "w.example.com." =
          {change2rr addYEvent} := by decide
    rw [reportForDomain, hdel, hadd, Finset.sort_singleton,
      Finset.sort_singleton]
    decide

/-- C7 witness: the general part of `c7_report_order` instantiated at the
concrete watch configuration and event list. -/
theorem c7_report_order_witness :
    ∃ dels adds : List String,
      reportForDomain (reconcile (watchKeys watch0) [delXEvent, addYEvent])
          "w.example.com." =
          dels.map (fun s => "  Deleted: " ++ s) ++
            adds.map (fun s => "  Added:   " ++ s) ∧
        dels.Sorted (· ≤ ·) ∧ adds.Sorted (· ≤ ·) ∧
        (∀ v, v ∈ dels ↔
          v ∈ (reconcile (watchKeys watch0)
            [delXEvent, addYEvent]).data_del "w.example.com.") ∧
        (∀ v, v ∈ adds ↔
          v ∈ (reconcile (watchKeys watch0)
            [delXEvent, addYEvent]).data_add "w.example.com.") :=
  c7_report_order.1 watch0 [delXEvent, addYEvent] "alice" ["w.example.com."]
    (by decide) "w.example.com." (by decide)

/-- C8: the canonical comparison key depends only on the event's name,
rdclass, rdtype and rdata fields; events agreeing on those four get the same
key regardless of serial, deleted, ttl and text. -/
theorem c8_key_depends_on_four_fields (e1 e2 : ChangeEvent)
    (hn : e1.name = e2.name) (hc : e1.rdclass = e2.rdclass)
    (ht : e1.rdtype = e2.rdtype) (hd : e1.rdata = e2.rdata) :
    change2rr e1 = change2rr e2 := by
  simp [change2rr, hn, hc, ht, hd]

/-- C8 witness: two events differing in serial, deleted, ttl and text but
agreeing on the four key fields receive the same comparison key. -/
theorem c8_key_depends_on_four_fields_witness :
    change2rr delXEvent = change2rr delXEventVariant :=
  c8_key_depends_on_four_fields delXEvent delXEventVariant rfl rfl rfl rfl

end Watchlist

namespace Controller

theorem lookup_map_update (st : StateMap) (k : String)
    (g : String × ZoneConfig → ZoneConfig) :
    List.lookup k (st.map fun p => if p.1 = k then (p.1, g p) else p) =
      (List.lookup k st).map fun c => g (k, c) := by
  induction st with
  | nil => simp
  | cons p st ih =>
    rw [List.map_cons]
    by_cases h : p.1 = k
    · rw [if_pos h]
      have hb : (k == p.1) = true := by simp [h]
      have hp : g p = g (k, p.2) := by
        rw [← h, Prod.mk.eta]
      simp [List.lookup, hb, hp]
    · rw [if_neg h]
      have hb : (k == p.1) = false := by
        simp [beq_eq_false_iff_ne]
        exact fun hh => h hh.symm
      simp [List.lookup, hb, ih]

theorem lookup_isSome_map_update (st : StateMap) (k k2 : String)
    (g : String × ZoneConfig → ZoneConfig) :
    (List.lookup k2
        (st.map fun p => if p.1 = k then (p.1, g p) else p)).isSome =
      (List.lookup k2 st).isSome := by
  induction st with
  | nil => simp
  | cons p st ih =>
    rw [List.map_cons]
    by_cases h : p.1 = k
    · rw [if_pos h]
      by_cases h2 : p.1 = k2
      · have hb : (k2 == p.1) = true := by simp [h2]
        simp [List.lookup, hb]
      · have hb : (k2 == p.1) = false := by
          simp [beq_eq_false_iff_ne]
          exact fun hh => h2 hh.symm
        simp [List.lookup, hb, ih]
    · rw [if_neg h]
      by_cases h2 : p.1 = k2
      · have hb : (k2 == p.1) = true := by simp [h2]
        simp [List.lookup, hb]
      · have hb : (k2 == p.1) = false := by
          simp [beq_eq_false_iff_ne]
          exact fun hh => h2 hh.symm
        simp [List.lookup, hb, ih]

/-- C5 (amended): on a successful run with an advanced serial and a non-empty
log, when the zone key carries no trailing dot the controller records the new
serial and the artifact name `<zone>-<newSerial>.log` in the zone's state
entry and renames the temporary file to that name; for a dot-terminated zone
key the filename assignment instead raises `KeyError`
(see `c5_counterexample`). -/
theorem c5_success_rename (st : StateMap) (zone : String) (cfg : ZoneConfig)
    (last_serial ns output_size changes : Nat)
    (hz : rstripDots zone = zone)
    (hlk : List.lookup zone st = some cfg)
    (hne : last_serial ≠ ns)
    (hsz : 0 < output_size) :
    ∃ st2,
      processZoneResult st zone last_serial
          (.ok { changes := changes, serial := some ns }) output_size true =
        .ok { state := st2,
              action := some (.renameTo (zone ++ "-" ++ toString ns ++ ".log")),
              exitNeg := false } ∧
      List.lookup zone st2 =
        some { cfg with
               serial := some ns
               filename := some (zone ++ "-" ++ toString ns ++ ".log") } := by
  refine ⟨(st.map fun p =>
      if p.1 = zone then (p.1, { p.2 with serial := some ns }) else p).map
        fun p =>
          if p.1 = zone then
            (p.1, { p.2 with
                    filename := some (zone ++ "-" ++ toString ns ++ ".log") })
          else p, ?_, ?_⟩
  · have hl1 : List.lookup zone (st.map fun p =>
        if p.1 = zone then (p.1, { p.2 with serial := some ns }) else p) =
          some { cfg with serial := some ns } := by
      simp [lookup_map_update, hlk]
    simp [processZoneResult, hne, hsz, hz, dictSet, hlk, hl1, pyStrOptNat]
  · rw [lookup_map_update _ zone
        (fun p =>
          { p.2 with
            filename := some (zone ++ "-" ++ toString ns ++ ".log") }),
      lookup_map_update _ zone (fun p => { p.2 with serial := some ns }),
      hlk]
    rfl

/-- C5 counterexample: for a dot-terminated zone key the same successful run
hits `KeyError` (line 226 rebinds `zone` to its dot-stripped form before the
`state[zone]["filename"]` assignment), so no filename is recorded for the
zone's state entry. -/
theorem c5_counterexample :
    processZoneResult c5StDot "example.com." 1
        (.ok { changes := 3, serial := some 2 }) 10 true =
      .error .keyError := rfl

/-- C5 witness: a concrete zone without a trailing dot. -/
theorem c5_success_rename_witness :
    ∃ st2,
      processZoneResult c5St "example.com" 1
          (.ok { changes := 3, serial := some 2 }) 10 true =
        .ok { state := st2,
              action := some
                (.renameTo ("example.com" ++ "-" ++ toString 2 ++ ".log")),
              exitNeg := false } ∧
      List.lookup "example.com" st2 =
        some { nameserver := "ns1", serial := some 2,
               filename :=
                 some ("example.com" ++ "-" ++ toString 2 ++ ".log") } :=
  c5_success_rename c5St "example.com"
    { nameserver := "ns1", serial := some 1 } 1 2 10 3
    (by decide) rfl (by decide) (by decide)

theorem processZoneResult_notIncremental (st : StateMap) (zone : String)
    (last_serial s output_size : Nat) (haveLog : Bool) (cfg : ZoneConfig)
    (hlk : List.lookup zone st = some cfg) :
    processZoneResult st zone last_serial (.error s) output_size haveLog =
      .ok { state := st.map fun p =>
              if p.1 = zone then (p.1, { p.2 with serial := some s }) else p,
            action := if haveLog then some .unlink else none,
            exitNeg := haveLog } := by
  cases haveLog <;> simp [processZoneResult, dictSet, hlk]

theorem loop_errors_of_transport (runs : String → RunOutcome)
    (sizes : String → Nat) (haveLog : Bool) (z : String)
    (hz : runs z = RunOutcome.transportError) :
    ∀ (zs : List String), z ∈ zs → ∀ st : StateMap,
      ∃ e, controllerLoop runs sizes haveLog st zs = .error e := by
  intro zs
  induction zs with
  | nil => simp
  | cons w zs ih =>
    intro hmem st
    by_cases hw : w = z
    · subst hw
      rcases hlk : List.lookup w st with _ | cfg
      · exact ⟨.keyError, by simp [controllerLoop, zoneStep, hlk]⟩
      · exact ⟨.transport, by simp [controllerLoop, zoneStep, hlk, hz]⟩
    · have hmem2 : z ∈ zs := by
        rcases List.mem_cons.mp hmem with h | h
        · exact absurd h.symm hw
        · exact h
      rcases hstep : zoneStep runs sizes haveLog st w with e | out
      · exact ⟨e, by simp [controllerLoop, hstep]⟩
      · obtain ⟨e, he⟩ := ih hmem2 out.state
        exact ⟨e, by simp [controllerLoop, hstep, he]⟩

/-- C6 (amended): a `FailedIXFR` (NotIncremental) failure on one zone does
not prevent the remaining zones from being processed — with only such
failures, every zone of the list is processed and the loop completes; but a
transport error on any zone aborts the loop uncaught: the zones after it are
not processed and the state file is never written, so no state mutation is
persisted for the failed zone or for any other zone
(see `c6_counterexample`). -/
theorem c6_failure_isolation :
    (∀ (runs : String → RunOutcome) (sizes : String → Nat) (haveLog : Bool)
        (zs : List String) (st : StateMap),
      (∀ z ∈ zs, (List.lookup z st).isSome = true ∧
        ∃ s, runs z = RunOutcome.notIncremental s) →
      processedZones runs sizes haveLog st zs = zs ∧
        ∃ out, controllerLoop runs sizes haveLog st zs = .ok out) ∧
    (∀ (runs : String → RunOutcome) (sizes : String → Nat) (haveLog : Bool)
        (st0 : StateMap) (z : String),
      z ∈ st0.map Prod.fst → runs z = RunOutcome.transportError →
      controllerMain runs sizes haveLog st0 = none) := by
  constructor
  · intro runs sizes haveLog zs
    induction zs with
    | nil => exact fun st _ => ⟨rfl, ⟨(st, [], false), rfl⟩⟩
    | cons z zs ih =>
      intro st h
      obtain ⟨hsome, s, hrun⟩ := h z (by simp)
      obtain ⟨cfg, hcfg⟩ := Option.isSome_iff_exists.mp hsome
      have hstep : zoneStep runs sizes haveLog st z =
          .ok { state := st.map fun p =>
                  if p.1 = z then (p.1, { p.2 with serial := some s }) else p,
                action := if haveLog then some .unlink else none,
                exitNeg := haveLog } := by
        simp [zoneStep, hcfg, hrun,
          processZoneResult_notIncremental st z _ s _ haveLog cfg hcfg]
      have hrest : ∀ z' ∈ zs,
          (List.lookup z' (st.map fun p =>
            if p.1 = z then (p.1, { p.2 with serial := some s }) else p)).isSome
              = true ∧
          ∃ s, runs z' = RunOutcome.notIncremental s := by
        intro z' hz'
        obtain ⟨h1, h2⟩ := h z' (by simp [hz'])
        have hiso := lookup_isSome_map_update st z z'
          (fun p => { p.2 with serial := some s })
        exact ⟨hiso.trans h1, h2⟩
      obtain ⟨hp, out, hloop⟩ := ih _ hrest
      refine ⟨by simp [processedZones, hstep, hp], ?_⟩
      rcases out with ⟨st2, acts, neg⟩
      exact ⟨(st2, (z, if haveLog then some .unlink else none) :: acts,
        haveLog || neg), by simp [controllerLoop, hstep, hloop]⟩
  · intro runs sizes haveLog st0 z hmem hz
    obtain ⟨e, he⟩ :=
      loop_errors_of_transport runs sizes haveLog z hz
        (st0.map Prod.fst) hmem st0
    simp [controllerMain, he]

/-- C6 counterexample: with two zones where the first hits a transport error,
the second zone is never processed and nothing at all is persisted — the
claim that a transport failure on one zone does not prevent the remaining
zones from being processed is false. -/
theorem c6_counterexample :
    processedZones cexRuns (fun _ => 1) true cexSt0 (cexSt0.map Prod.fst) =
        ["a.example.com."] ∧
      "b.example.com." ∈ cexSt0.map Prod.fst ∧
      controllerMain cexRuns (fun _ => 1) true cexSt0 = none :=
  ⟨rfl, by decide, rfl⟩

/-- C6 witness: both amended parts at concrete inputs. -/
theorem c6_failure_isolation_witness :
    (processedZones (fun _ => RunOutcome.notIncremental 7) (fun _ => 0) true
          cexSt0 ["a.example.com.", "b.example.com."] =
        ["a.example.com.", "b.example.com."] ∧
      ∃ out, controllerLoop (fun _ => RunOutcome.notIncremental 7)
          (fun _ => 0) true cexSt0 ["a.example.com.", "b.example.com."] =
        .ok out) ∧
    controllerMain cexRuns (fun _ => 1) true cexSt0 = none :=
  ⟨c6_failure_isolation.1 (fun _ => RunOutcome.notIncremental 7) (fun _ => 0)
      true ["a.example.com.", "b.example.com."] cexSt0
      (fun z hz => by fin_cases hz <;> exact ⟨rfl, 7, rfl⟩),
   c6_failure_isolation.2 cexRuns (fun _ => 1) true cexSt0 "a.example.com."
      (by decide) rfl⟩

end Controller
